import Mathlib

/-!
Verification of the cron-frequency utilities in
`src/main/python/starlake-orchestration/ai/starlake/common/__init__.py`.

Time is modelled as a natural number of seconds.  The external
cron-iteration engine (croniter) is not part of the repository; following
the spec (§6) it is modelled abstractly as a parser producing, for each
valid expression, a schedule: a set of firing instants (`fires`) together
with a `get_next` function (`next`) that returns the least firing instant
strictly after its argument, and a `get_prev` function.  Standard 5-field
cron expressions fire at minute boundaries, so every firing instant is a
multiple of 60 seconds (`minuteAligned`).
-/

/-- Errors of the analyzed functions, per spec §7: a parse failure raised by
the cron engine, and the local `ValueError` for an unsupported period. -/
inductive CronError where
  | invalidCronExpression
  | unsupportedPeriod
deriving DecidableEq, Repr

/-- A parsed cron schedule, the model of a `croniter` iterator obtained from a
valid 5-field expression: `fires t` says an occurrence is scheduled at second
`t`; `next` is `get_next`, returning the least occurrence strictly after its
argument; `prev` is `get_prev` (its schedule semantics is not needed by any
claim and is left as engine data). -/
structure CronSched where
  fires : ℕ → Bool
  next : ℕ → ℕ
  prev : ℕ → ℕ
  next_gt : ∀ t, t < next t
  next_fires : ∀ t, fires (next t) = true
  next_least : ∀ t s, t < s → fires s = true → next t ≤ s
  minuteAligned : ∀ t, fires t = true → t % 60 = 0

/-- The external cron-expression engine (spec §6): parsing a string either
yields a schedule or fails (croniter raises its bad-expression error at
construction time, before any occurrence is computed). -/
structure CronEngine where
  parse : String → Option CronSched

/-- Seconds in `timedelta(days=1)`. -/
def secondsPerDay : ℕ := 86400

/-- Seconds in `timedelta(weeks=1)`. -/
def secondsPerWeek : ℕ := 604800

/-- The `while True` loop of `get_cron_frequency`: repeatedly pull
`next_run = iter.get_next(datetime)` from the stateful iterator (cursor starts
at `start_time`); count it if `next_run < end_time`, otherwise break.
Terminates because `get_next` is strictly increasing (`next_gt`), so the gap
to `end_time` shrinks at every counted step. -/
def countRuns (iter : CronSched) (end_time : ℕ) (cursor : ℕ) : ℕ :=
  let next_run := iter.next cursor
  if next_run < end_time then countRuns iter end_time next_run + 1 else 0
termination_by end_time - cursor
decreasing_by
  have h := iter.next_gt cursor
  omega

/-- Model of `get_cron_frequency(cron_expression, start_time, period='day')`:
construct the iterator (parse errors propagate), compute
`end_time = start_time + timedelta(...)` by the `if/elif` chain on `period`
(raising `ValueError` otherwise), then run the counting loop. -/
def get_cron_frequency (E : CronEngine) (cron_expression : String)
    (start_time : ℕ) (period : String := "day") : Except CronError ℕ := do
  let iter ← match E.parse cron_expression with
    | some it => Except.ok it
    | none => Except.error CronError.invalidCronExpression
  let end_time ←
    if period = "day" then Except.ok (start_time + secondsPerDay)
    else if period = "week" then Except.ok (start_time + secondsPerWeek)
    else if period = "month" then Except.ok (start_time + 30 * secondsPerDay)
    else Except.error CronError.unsupportedPeriod
  Except.ok (countRuns iter end_time start_time)

/-- A schedule firing exactly at the multiples of `60 * k` seconds: the model
engine's meaning for an expression that fires every `k` minutes. -/
def every (k : ℕ) (hk : 0 < k) : CronSched where
  fires t := t % (60 * k) == 0
  next t := 60 * k * (t / (60 * k)) + 60 * k
  prev t := 60 * k * (t / (60 * k))
  next_gt t := by
    show t < 60 * k * (t / (60 * k)) + 60 * k
    have h1 := Nat.mod_add_div t (60 * k)
    have h2 : t % (60 * k) < 60 * k := Nat.mod_lt t (by omega)
    omega
  next_fires t := by
    have : 60 * k * (t / (60 * k)) + 60 * k = 60 * k * (t / (60 * k) + 1) := by ring
    simp [this, Nat.mul_mod_right]
  next_least t s hts hs := by
    show 60 * k * (t / (60 * k)) + 60 * k ≤ s
    simp only [beq_iff_eq] at hs
    have h1 := Nat.mod_add_div t (60 * k)
    have h2 := Nat.mod_add_div s (60 * k)
    have h3 : t / (60 * k) < s / (60 * k) := by
      rcases Nat.lt_or_ge (t / (60 * k)) (s / (60 * k)) with h | h
      · exact h
      · exfalso
        have h4 : 60 * k * (s / (60 * k)) ≤ 60 * k * (t / (60 * k)) :=
          Nat.mul_le_mul_left (60 * k) h
        omega
    have h5 : 60 * k * (t / (60 * k) + 1) ≤ 60 * k * (s / (60 * k)) :=
      Nat.mul_le_mul_left (60 * k) h3
    have h6 : 60 * k * (t / (60 * k) + 1) = 60 * k * (t / (60 * k)) + 60 * k := by
      ring
    omega
  minuteAligned t ht := by
    simp only [beq_iff_eq] at ht
    have h1 : 60 * k ∣ t := Nat.dvd_of_mod_eq_zero ht
    have h2 : (60 : ℕ) ∣ t := dvd_trans (Dvd.intro k rfl) h1
    obtain ⟨c, rfl⟩ := h2
    exact Nat.mul_mod_right 60 c

/-- The list comprehension inside `sort_crons_by_frequency`:
`[(expr, get_cron_frequency(expr, start_time, period)) for expr in cron_expressions]`,
evaluated left to right; the first raised error aborts the whole call with no
partial result. -/
def computeFrequencies (E : CronEngine) (start_time : ℕ) (cron_expressions : List String)
    (period : String) : Except CronError (List (String × ℕ)) :=
  match cron_expressions with
  | [] => Except.ok []
  | expr :: rest => do
    let f ← get_cron_frequency E expr start_time period
    let tail ← computeFrequencies E start_time rest period
    Except.ok ((expr, f) :: tail)

/-- The comparison used to model Python's
`sorted(frequencies, key=lambda x: x[1], reverse=True)`: `x` may be placed
before `y` exactly when its count is at least `y`'s.  Python's sort is stable,
and a stable sort with this total transitive relation is extensionally unique,
so `List.insertionSort` with this relation is a faithful model. -/
def cronDescOrder (x y : String × ℕ) : Prop := y.2 ≤ x.2

instance : DecidableRel cronDescOrder := fun x y => Nat.decLe y.2 x.2

instance : IsTotal (String × ℕ) cronDescOrder := ⟨fun x y => Nat.le_total y.2 x.2⟩

instance : IsTrans (String × ℕ) cronDescOrder := ⟨fun _ _ _ h1 h2 => Nat.le_trans h2 h1⟩

/-- Model of `sort_crons_by_frequency(cron_expressions, period='day')`:
`start_time = cron_start_time()` is the clock reading at call time, passed
here as the argument `now`; compute the `(expr, frequency)` pairs, then return
them sorted by frequency in descending order. -/
def sort_crons_by_frequency (E : CronEngine) (now : ℕ) (cron_expressions : List String)
    (period : String := "day") : Except CronError (List (String × ℕ)) := do
  let frequencies ← computeFrequencies E now cron_expressions period
  Except.ok (List.insertionSort cronDescOrder frequencies)

/-- Model of `cron_start_time()`, that is `datetime.fromtimestamp(datetime.now().timestamp())`,
the identity on the current clock reading (passed explicitly as `now`). -/
def cron_start_time (now : ℕ) : ℕ := now

/-- The module-level constant `sl_schedule_format`. -/
def sl_schedule_format : String := "%Y%m%dT%H%M"

/-- The default values of `sl_schedule`, bound once when the module is loaded:
Python evaluates default-argument expressions at function definition time, so
`start_time = cron_start_time()` captures the clock reading of the moment the
`def` statement ran, not of each call. -/
structure ModuleDefaults where
  sl_schedule_start_time : ℕ

/-- Module load: the `def sl_schedule(...)` statement runs at definition-time
clock `def_clock` and freezes `cron_start_time()` into the defaults. -/
def moduleInit (def_clock : ℕ) : ModuleDefaults :=
  { sl_schedule_start_time := cron_start_time def_clock }

/-- Model of `sl_schedule(cron, start_time=cron_start_time(), format=sl_schedule_format)`,
`croniter(cron, start_time).get_prev(datetime).strftime(format)`.  `strftime`
belongs to the external datetime library and is passed as an uninterpreted
function; `now_at_call` is the actual clock at call time, which the body never
reads — an omitted `start_time` falls back to the definition-time default. -/
def sl_schedule (E : CronEngine) (strftime : ℕ → String → String)
    (defaults : ModuleDefaults) (now_at_call : ℕ) (cron : String)
    (start_time : Option ℕ := none) (format : String := sl_schedule_format) :
    Option String :=
  match E.parse cron with
  | none => none
  | some iter =>
    some (strftime (iter.prev (start_time.getD defaults.sl_schedule_start_time)) format)

/-- Spec-side window length (§4.1): `windowLength(day)=24h`,
`windowLength(week)=7×24h`, `windowLength(month)=30×24h`, in seconds. -/
def windowLength (period : String) : ℕ :=
  if period = "day" then 86400
  else if period = "week" then 604800
  else 2592000

/-- Spec-side occurrence count: the number of scheduled occurrences lying
strictly after `start_time` and strictly before `start_time + windowLength`. -/
def specCount (iter : CronSched) (start_time : ℕ) (period : String) : ℕ :=
  ((Finset.Ioo start_time (start_time + windowLength period)).filter
    (fun t => iter.fires t = true)).card

/-- A fixture engine implementing the spec's scenarios: it understands the
four expressions used in §8 and rejects everything else. -/
def testEngine : CronEngine where
  parse s :=
    match s with
    | "* * * * *" => some (every 1 (by omega))
    | "0 * * * *" => some (every 60 (by omega))
    | "0 0 * * *" => some (every 1440 (by omega))
    | "0 0 1 1 *" => some (every 525600 (by omega))
    | _ => none

/-- One unfolding of the counting loop. -/
theorem countRuns_unfold (iter : CronSched) (e c : ℕ) :
    countRuns iter e c =
      if iter.next c < e then countRuns iter e (iter.next c) + 1 else 0 := by
  rw [countRuns]

/-- When the next occurrence lands inside the window, the firing instants of
`(c, e)` are that occurrence together with the firing instants of
`(next c, e)`. -/
theorem filter_fires_Ioo_step (iter : CronSched) (c e : ℕ) (h : iter.next c < e) :
    (Finset.Ioo c e).filter (fun t => iter.fires t = true) =
      insert (iter.next c)
        ((Finset.Ioo (iter.next c) e).filter (fun t => iter.fires t = true)) := by
  ext t
  simp only [Finset.mem_filter, Finset.mem_Ioo, Finset.mem_insert]
  constructor
  · rintro ⟨⟨hct, hte⟩, hf⟩
    rcases eq_or_lt_of_le (iter.next_least c t hct hf) with heq | hlt
    · exact Or.inl heq.symm
    · exact Or.inr ⟨⟨hlt, hte⟩, hf⟩
  · rintro (rfl | ⟨⟨h1, h2⟩, hf⟩)
    · exact ⟨⟨iter.next_gt c, h⟩, iter.next_fires c⟩
    · exact ⟨⟨lt_trans (iter.next_gt c) h1, h2⟩, hf⟩

/-- When the next occurrence is already at or past the end, no firing instant
lies in the window at all. -/
theorem filter_fires_Ioo_empty (iter : CronSched) (c e : ℕ) (h : ¬ iter.next c < e) :
    (Finset.Ioo c e).filter (fun t => iter.fires t = true) = ∅ := by
  rw [Finset.filter_eq_empty_iff]
  intro t ht hf
  rw [Finset.mem_Ioo] at ht
  exact h (lt_of_le_of_lt (iter.next_least c t ht.1 hf) ht.2)

/-- The counting loop returns exactly the number of scheduled occurrences
strictly after the cursor and strictly before the end of the window. -/
theorem countRuns_eq_card (iter : CronSched) (e c : ℕ) :
    countRuns iter e c =
      ((Finset.Ioo c e).filter (fun t => iter.fires t = true)).card := by
  have key : ∀ m c, e - c ≤ m →
      countRuns iter e c =
        ((Finset.Ioo c e).filter (fun t => iter.fires t = true)).card := by
    intro m
    induction m with
    | zero =>
      intro c hc
      have hnext : ¬ iter.next c < e := by
        have := iter.next_gt c
        omega
      rw [countRuns_unfold, if_neg hnext, filter_fires_Ioo_empty iter c e hnext,
        Finset.card_empty]
    | succ m ih =>
      intro c hc
      rw [countRuns_unfold]
      by_cases h : iter.next c < e
      · rw [if_pos h, filter_fires_Ioo_step iter c e h,
          Finset.card_insert_of_not_mem (by simp), ih (iter.next c)
            (by have := iter.next_gt c; omega)]
      · rw [if_neg h, filter_fires_Ioo_empty iter c e h, Finset.card_empty]
  exact key (e - c) c le_rfl
/-- Evaluation of `get_cron_frequency` when the expression fails to parse:
the engine's error propagates unchanged, whatever the period. -/
theorem get_cron_frequency_parse_none (E : CronEngine) (expr : String) (start : ℕ)
    (period : String) (hm : E.parse expr = none) :
    get_cron_frequency E expr start period = Except.error CronError.invalidCronExpression := by
  unfold get_cron_frequency
  rw [hm]
  rfl

/-- Evaluation of `get_cron_frequency` when the expression parses: the result
is the loop count for the period's window, or the unsupported-period error. -/
theorem get_cron_frequency_parse_some (E : CronEngine) (expr : String) (iter : CronSched)
    (start : ℕ) (period : String) (h : E.parse expr = some iter) :
    get_cron_frequency E expr start period =
      if period = "day" then Except.ok (countRuns iter (start + secondsPerDay) start)
      else if period = "week" then Except.ok (countRuns iter (start + secondsPerWeek) start)
      else if period = "month" then Except.ok (countRuns iter (start + 30 * secondsPerDay) start)
      else Except.error CronError.unsupportedPeriod := by
  unfold get_cron_frequency
  rw [h]
  split_ifs <;> rfl

/-- C1: for every valid cron expression (one the engine parses), start time,
and period in {day, week, month}, `get_cron_frequency` returns `Except.ok` of
exactly the number of scheduled occurrences lying strictly after the start
time and strictly before `start_time + windowLength(period)` (24h, 7×24h, and
30×24h respectively); in particular the loop stops without error at the first
occurrence at or past the end of the window, and a schedule whose first
occurrence after the start is already past the window yields 0. -/
theorem getFrequency_counts_occurrences (E : CronEngine) (expr : String) (iter : CronSched)
    (start : ℕ) (period : String) (h : E.parse expr = some iter)
    (hp : period = "day" ∨ period = "week" ∨ period = "month") :
    get_cron_frequency E expr start period = Except.ok (specCount iter start period) := by
  rcases hp with hp | hp | hp <;> subst hp <;>
    rw [get_cron_frequency_parse_some E expr iter start _ h] <;>
    simp [specCount, windowLength, countRuns_eq_card, secondsPerDay, secondsPerWeek]

/-- Witness for C1 at the daily expression of Scenario 3, start 0, period
`day`. -/
theorem getFrequency_counts_occurrences_witness :
    get_cron_frequency testEngine "0 0 * * *" 0 "day" =
      Except.ok (specCount (every 1440 (by omega)) 0 "day") :=
  getFrequency_counts_occurrences testEngine "0 0 * * *" (every 1440 (by omega)) 0 "day"
    rfl (Or.inl rfl)

/-- C2 (amended): for every input whose cron expression the engine parses
successfully and whose period is not one of `day`, `week`, `month`,
`get_cron_frequency` fails with the unsupported-period error.  The result is
the same for every schedule the parser could have produced — the error depends
on no occurrence of the schedule, reflecting that it is raised before the
counting loop runs. -/
theorem getFrequency_unsupported_period (E : CronEngine) (expr : String) (iter : CronSched)
    (start : ℕ) (period : String) (h : E.parse expr = some iter)
    (hp : ¬(period = "day" ∨ period = "week" ∨ period = "month")) :
    get_cron_frequency E expr start period = Except.error CronError.unsupportedPeriod := by
  push_neg at hp
  rw [get_cron_frequency_parse_some E expr iter start _ h,
    if_neg hp.1, if_neg hp.2.1, if_neg hp.2.2]

/-- Witness for the amended C2: Scenario 4's `period="year"` on a valid
expression. -/
theorem getFrequency_unsupported_period_witness :
    get_cron_frequency testEngine "* * * * *" 0 "year" =
      Except.error CronError.unsupportedPeriod :=
  getFrequency_unsupported_period testEngine "* * * * *" (every 1 (by omega)) 0 "year"
    rfl (by decide)

/-- Counterexample to C2 as stated: with a malformed expression and the
invalid period `"year"`, the call fails with the cron-parse error, not with
the unsupported-period error, because the expression is parsed first. -/
theorem getFrequency_unsupported_period_counterexample :
    get_cron_frequency testEngine "not a cron" 0 "year" =
        Except.error CronError.invalidCronExpression ∧
      CronError.invalidCronExpression ≠ CronError.unsupportedPeriod :=
  ⟨rfl, by decide⟩

/-- C10: `get_cron_frequency` parses the expression before validating the
period, so a malformed expression together with an invalid period fails with
the cron-parse error rather than the unsupported-period error; and
`sort_crons_by_frequency` on an empty input returns the empty sequence even
when the period is invalid, because no period validation ever runs. -/
theorem getFrequency_parse_before_period (E : CronEngine) (expr : String)
    (start now : ℕ) (period : String) (hm : E.parse expr = none)
    (hp : ¬(period = "day" ∨ period = "week" ∨ period = "month")) :
    get_cron_frequency E expr start period = Except.error CronError.invalidCronExpression ∧
      sort_crons_by_frequency E now [] period = Except.ok [] :=
  ⟨get_cron_frequency_parse_none E expr start period hm, rfl⟩

/-- Witness for C10 at a malformed expression and `period="year"`. -/
theorem getFrequency_parse_before_period_witness :
    get_cron_frequency testEngine "not a cron" 7 "year" =
        Except.error CronError.invalidCronExpression ∧
      sort_crons_by_frequency testEngine 7 [] "year" = Except.ok [] :=
  getFrequency_parse_before_period testEngine "not a cron" 7 7 "year" rfl (by decide)

/-- Counting the multiples of 60 in an open window of `W` minutes whose left
end is not itself on a minute boundary: there are exactly `W` of them. -/
theorem minute_multiples_card (a W : ℕ) (ha : a % 60 ≠ 0) :
    ((Finset.Ioo a (a + 60 * W)).filter (fun t => t % 60 = 0)).card = W := by
  have himg : (Finset.Ioo a (a + 60 * W)).filter (fun t => t % 60 = 0)
      = (Finset.Icc (a / 60 + 1) (a / 60 + W)).image (fun m => 60 * m) := by
    ext t
    simp only [Finset.mem_filter, Finset.mem_Ioo, Finset.mem_image, Finset.mem_Icc]
    constructor
    · rintro ⟨⟨h1, h2⟩, h3⟩
      refine ⟨t / 60, ⟨?_, ?_⟩, ?_⟩ <;> omega
    · rintro ⟨m, ⟨hm1, hm2⟩, rfl⟩
      omega
  rw [himg, Finset.card_image_of_injective _ (fun x y hxy => by omega), Nat.card_Icc]
  omega

/-- C4: on the every-minute expression `"* * * * *"` with period `day` and a
start time not itself on a minute boundary, `get_cron_frequency` returns
exactly 1440. -/
theorem getFrequency_every_minute_day (E : CronEngine) (iter : CronSched) (start : ℕ)
    (h : E.parse "* * * * *" = some iter)
    (hfires : ∀ t, iter.fires t = (t % 60 == 0))
    (hstart : start % 60 ≠ 0) :
    get_cron_frequency E "* * * * *" start "day" = Except.ok 1440 := by
  rw [get_cron_frequency_parse_some E _ iter start _ h, if_pos rfl,
    countRuns_eq_card]
  have hcongr : ∀ x ∈ Finset.Ioo start (start + secondsPerDay),
      (iter.fires x = true ↔ x % 60 = 0) := by
    intro x _
    rw [hfires]
    simp
  rw [Finset.filter_congr hcongr,
    show start + secondsPerDay = start + 60 * 1440 from rfl,
    minute_multiples_card start 1440 hstart]

/-- Witness for C4 at start time 30 (half a minute past the epoch). -/
theorem getFrequency_every_minute_day_witness :
    get_cron_frequency testEngine "* * * * *" 30 "day" = Except.ok 1440 :=
  getFrequency_every_minute_day testEngine (every 1 (by omega)) 30 rfl
    (fun t => rfl) (by decide)

/-- C5: for a fixed parsed expression and fixed start time, the frequency over
a month window is at least the frequency over a week window, which is at least
the frequency over a day window. -/
theorem getFrequency_monotone (E : CronEngine) (expr : String) (iter : CronSched)
    (start : ℕ) (h : E.parse expr = some iter) :
    ∃ d w m, get_cron_frequency E expr start "day" = Except.ok d ∧
      get_cron_frequency E expr start "week" = Except.ok w ∧
      get_cron_frequency E expr start "month" = Except.ok m ∧
      d ≤ w ∧ w ≤ m := by
  refine ⟨countRuns iter (start + secondsPerDay) start,
    countRuns iter (start + secondsPerWeek) start,
    countRuns iter (start + 30 * secondsPerDay) start, ?_, ?_, ?_, ?_, ?_⟩
  · rw [get_cron_frequency_parse_some E expr iter start _ h]
    rfl
  · rw [get_cron_frequency_parse_some E expr iter start _ h]
    rfl
  · rw [get_cron_frequency_parse_some E expr iter start _ h]
    rfl
  · rw [countRuns_eq_card, countRuns_eq_card]
    exact Finset.card_le_card (Finset.filter_subset_filter _
      (Finset.Ioo_subset_Ioo_right (by norm_num [secondsPerDay, secondsPerWeek])))
  · rw [countRuns_eq_card, countRuns_eq_card]
    exact Finset.card_le_card (Finset.filter_subset_filter _
      (Finset.Ioo_subset_Ioo_right (by norm_num [secondsPerDay, secondsPerWeek])))

/-- Witness for C5 at the hourly expression of Scenario 3 and start 0. -/
theorem getFrequency_monotone_witness :
    ∃ d w m, get_cron_frequency testEngine "0 * * * *" 0 "day" = Except.ok d ∧
      get_cron_frequency testEngine "0 * * * *" 0 "week" = Except.ok w ∧
      get_cron_frequency testEngine "0 * * * *" 0 "month" = Except.ok m ∧
      d ≤ w ∧ w ≤ m :=
  getFrequency_monotone testEngine "0 * * * *" (every 60 (by omega)) 0 rfl

/-- Any cron schedule fires only at minute boundaries, so an open window of
`W` minutes can contain at most `W` occurrences. -/
theorem fires_card_le (iter : CronSched) (a W : ℕ) :
    ((Finset.Ioo a (a + 60 * W)).filter (fun t => iter.fires t = true)).card ≤ W := by
  have hsub : (Finset.Ioo a (a + 60 * W)).filter (fun t => iter.fires t = true)
      ⊆ (Finset.Icc (a / 60 + 1) (a / 60 + W)).image (fun m => 60 * m) := by
    intro t ht
    simp only [Finset.mem_filter, Finset.mem_Ioo] at ht
    obtain ⟨⟨h1, h2⟩, hf⟩ := ht
    have h60 := iter.minuteAligned t hf
    simp only [Finset.mem_image, Finset.mem_Icc]
    exact ⟨t / 60, by omega, by omega⟩
  calc ((Finset.Ioo a (a + 60 * W)).filter (fun t => iter.fires t = true)).card
      ≤ ((Finset.Icc (a / 60 + 1) (a / 60 + W)).image (fun m => 60 * m)).card :=
        Finset.card_le_card hsub
    _ ≤ (Finset.Icc (a / 60 + 1) (a / 60 + W)).card := Finset.card_image_le
    _ = W := by rw [Nat.card_Icc]; omega

/-- C8: whenever the counting loop of `get_cron_frequency` produces a result
(it always terminates, by well-founded recursion on the distance to the end of
the window, using that `get_next` is strictly increasing), the count — and so
the number of loop iterations, up to the final exiting step — is bounded by
the number of minutes in the window: 1440 for `day`, 10080 for `week`, 43200
for `month`. -/
theorem getFrequency_iteration_bound (E : CronEngine) (expr : String) (iter : CronSched)
    (start : ℕ) (period : String) (n : ℕ) (h : E.parse expr = some iter)
    (hn : get_cron_frequency E expr start period = Except.ok n) :
    (period = "day" → n ≤ 1440) ∧ (period = "week" → n ≤ 10080) ∧
      (period = "month" → n ≤ 43200) := by
  rw [get_cron_frequency_parse_some E expr iter start _ h] at hn
  refine ⟨?_, ?_, ?_⟩ <;> intro hp <;> subst hp <;> simp only [if_pos rfl,
    String.reduceEq, if_false, if_true, Except.ok.injEq] at hn <;> subst hn <;>
    rw [countRuns_eq_card]
  · exact fires_card_le iter start 1440
  · exact show _ ≤ 10080 from
      (by rw [show start + secondsPerWeek = start + 60 * 10080 from rfl] :
        ((Finset.Ioo start (start + secondsPerWeek)).filter
          (fun t => iter.fires t = true)).card =
        ((Finset.Ioo start (start + 60 * 10080)).filter
          (fun t => iter.fires t = true)).card) ▸ fires_card_le iter start 10080
  · exact show _ ≤ 43200 from
      (by rw [show start + 30 * secondsPerDay = start + 60 * 43200 from rfl] :
        ((Finset.Ioo start (start + 30 * secondsPerDay)).filter
          (fun t => iter.fires t = true)).card =
        ((Finset.Ioo start (start + 60 * 43200)).filter
          (fun t => iter.fires t = true)).card) ▸ fires_card_le iter start 43200

/-- Witness for C8: the daily expression from start 0 over a day window
counts 0 occurrences, within the 1440 bound. -/
theorem getFrequency_iteration_bound_witness :
    ("day" = "day" → (0 : ℕ) ≤ 1440) ∧ ("day" = "week" → (0 : ℕ) ≤ 10080) ∧
      ("day" = "month" → (0 : ℕ) ≤ 43200) :=
  getFrequency_iteration_bound testEngine "0 0 * * *" (every 1440 (by omega)) 0 "day" 0 rfl
    (by rw [get_cron_frequency_parse_some testEngine "0 0 * * *" (every 1440 (by omega))
          0 "day" rfl, if_pos rfl, countRuns_unfold]
        norm_num [every, secondsPerDay])

/-- One step of the list comprehension. -/
theorem computeFrequencies_cons (E : CronEngine) (s : ℕ) (e : String)
    (rest : List String) (p : String) :
    computeFrequencies E s (e :: rest) p =
      Except.bind (get_cron_frequency E e s p) (fun f =>
        Except.bind (computeFrequencies E s rest p) (fun tail =>
          Except.ok ((e, f) :: tail))) := rfl

/-- If some expression fails to parse, or the list is nonempty and the period
is invalid, the comprehension raises: no pair list is produced. -/
theorem computeFrequencies_error (E : CronEngine) (s : ℕ) (exprs : List String)
    (p : String)
    (h : (∃ e ∈ exprs, E.parse e = none) ∨
      (exprs ≠ [] ∧ ¬(p = "day" ∨ p = "week" ∨ p = "month"))) :
    ∃ err, computeFrequencies E s exprs p = Except.error err := by
  induction exprs with
  | nil =>
    rcases h with ⟨e, he, _⟩ | ⟨hne, _⟩
    · exact absurd he (List.not_mem_nil e)
    · exact absurd rfl hne
  | cons e rest ih =>
    rw [computeFrequencies_cons]
    cases hg : get_cron_frequency E e s p with
    | error err => exact ⟨err, rfl⟩
    | ok f =>
      rcases h with ⟨x, hx, hpx⟩ | ⟨hne, hpp⟩
      · rcases List.mem_cons.mp hx with rfl | hxr
        · rw [get_cron_frequency_parse_none E x s p hpx] at hg
          exact Except.noConfusion hg
        · obtain ⟨err, herr⟩ := ih (Or.inl ⟨x, hxr, hpx⟩)
          exact ⟨err, by rw [herr]; rfl⟩
      · exfalso
        cases hpar : E.parse e with
        | none =>
          rw [get_cron_frequency_parse_none E e s p hpar] at hg
          exact Except.noConfusion hg
        | some it =>
          push_neg at hpp
          rw [get_cron_frequency_parse_some E e it s p hpar,
            if_neg hpp.1, if_neg hpp.2.1, if_neg hpp.2.2] at hg
          exact Except.noConfusion hg

/-- C3 (amended): if any expression in the input fails to parse, or the input
is nonempty and the period is not one of `day`, `week`, `month`, the whole
`sort_crons_by_frequency` call fails with an error; the `Except.error` result
carries no partial pair list.  (The empty input with an invalid period is the
sole exception forced by the code: no expression is ever evaluated, so no
error is raised.) -/
theorem sortByFrequency_error_propagation (E : CronEngine) (now : ℕ)
    (exprs : List String) (period : String)
    (h : (∃ e ∈ exprs, E.parse e = none) ∨
      (exprs ≠ [] ∧ ¬(period = "day" ∨ period = "week" ∨ period = "month"))) :
    ∃ err, sort_crons_by_frequency E now exprs period = Except.error err := by
  obtain ⟨err, herr⟩ := computeFrequencies_error E now exprs period h
  refine ⟨err, ?_⟩
  unfold sort_crons_by_frequency
  rw [herr]
  rfl

/-- Witness for the amended C3: a list containing one malformed expression. -/
theorem sortByFrequency_error_propagation_witness :
    ∃ err, sort_crons_by_frequency testEngine 0 ["* * * * *", "oops"] "day" =
      Except.error err :=
  sortByFrequency_error_propagation testEngine 0 ["* * * * *", "oops"] "day"
    (Or.inl ⟨"oops", by simp, rfl⟩)

/-- Counterexample to C3 as stated: on the empty input with the invalid
period `"year"` the call succeeds with the empty result instead of failing,
because the comprehension evaluates nothing and the sort of an empty list
succeeds. -/
theorem sortByFrequency_empty_invalid_period_counterexample :
    sort_crons_by_frequency testEngine 0 [] "year" = Except.ok [] := rfl

/-- A successful `sort_crons_by_frequency` call is a successful comprehension
followed by the stable descending sort. -/
theorem sort_crons_ok_elim (E : CronEngine) (now : ℕ) (exprs : List String)
    (period : String) (out : List (String × ℕ))
    (hs : sort_crons_by_frequency E now exprs period = Except.ok out) :
    ∃ freqs, computeFrequencies E now exprs period = Except.ok freqs ∧
      out = List.insertionSort cronDescOrder freqs := by
  unfold sort_crons_by_frequency at hs
  cases hc : computeFrequencies E now exprs period with
  | error e =>
    rw [hc] at hs
    exact Except.noConfusion hs
  | ok freqs =>
    rw [hc] at hs
    exact ⟨freqs, rfl, (Except.ok.inj hs).symm⟩

/-- The comprehension pairs each input expression, in order, with its count:
the first projections of a successful result are the input list itself. -/
theorem computeFrequencies_map_fst (E : CronEngine) (s : ℕ) (exprs : List String)
    (p : String) (freqs : List (String × ℕ))
    (h : computeFrequencies E s exprs p = Except.ok freqs) :
    freqs.map Prod.fst = exprs := by
  induction exprs generalizing freqs with
  | nil =>
    have h0 : freqs = [] := (Except.ok.inj h).symm
    subst h0
    rfl
  | cons e rest ih =>
    rw [computeFrequencies_cons] at h
    cases hg : get_cron_frequency E e s p with
    | error err =>
      rw [hg] at h
      exact Except.noConfusion h
    | ok f =>
      rw [hg] at h
      cases hr : computeFrequencies E s rest p with
      | error err =>
        rw [hr] at h
        exact Except.noConfusion h
      | ok tail =>
        rw [hr] at h
        have hfr : freqs = (e, f) :: tail := (Except.ok.inj h).symm
        subst hfr
        simp only [List.map_cons]
        rw [ih tail hr]

/-- C6: a successful `sort_crons_by_frequency` call returns as many pairs as
there are input expressions, the multiset of first components is exactly the
multiset of input expressions, and the counts are non-increasing from first to
last (`cronDescOrder` holds pairwise). -/
theorem sortByFrequency_shape (E : CronEngine) (now : ℕ) (exprs : List String)
    (period : String) (out : List (String × ℕ))
    (hs : sort_crons_by_frequency E now exprs period = Except.ok out) :
    out.length = exprs.length ∧ List.Perm (out.map Prod.fst) exprs ∧
      List.Pairwise cronDescOrder out := by
  obtain ⟨freqs, hc, rfl⟩ := sort_crons_ok_elim E now exprs period out hs
  have hperm : List.Perm (List.insertionSort cronDescOrder freqs) freqs :=
    List.perm_insertionSort cronDescOrder freqs
  have hmf := computeFrequencies_map_fst E now exprs period freqs hc
  refine ⟨?_, ?_, ?_⟩
  · rw [hperm.length_eq, ← hmf, List.length_map]
  · exact hmf ▸ hperm.map Prod.fst
  · exact List.sorted_insertionSort cronDescOrder freqs

/-- Witness for C6 on a two-expression input whose counts from start 0 over a
day window are both 0. -/
theorem sortByFrequency_shape_witness :
    ([("0 0 * * *", 0), ("0 0 1 1 *", 0)] : List (String × ℕ)).length =
        (["0 0 * * *", "0 0 1 1 *"] : List String).length ∧
      List.Perm (([("0 0 * * *", 0), ("0 0 1 1 *", 0)] : List (String × ℕ)).map Prod.fst)
        ["0 0 * * *", "0 0 1 1 *"] ∧
      List.Pairwise cronDescOrder [("0 0 * * *", 0), ("0 0 1 1 *", 0)] :=
  sortByFrequency_shape testEngine 0 ["0 0 * * *", "0 0 1 1 *"] "day"
    [("0 0 * * *", 0), ("0 0 1 1 *", 0)]
    (by
      have h1 : get_cron_frequency testEngine "0 0 * * *" 0 "day" = Except.ok 0 := by
        rw [get_cron_frequency_parse_some testEngine "0 0 * * *" (every 1440 (by omega))
          0 "day" rfl, if_pos rfl, countRuns_unfold]
        norm_num [every, secondsPerDay]
      have h2 : get_cron_frequency testEngine "0 0 1 1 *" 0 "day" = Except.ok 0 := by
        rw [get_cron_frequency_parse_some testEngine "0 0 1 1 *" (every 525600 (by omega))
          0 "day" rfl, if_pos rfl, countRuns_unfold]
        norm_num [every, secondsPerDay]
      unfold sort_crons_by_frequency
      rw [computeFrequencies_cons, h1, computeFrequencies_cons, h2]
      rfl)

/-- Inserting a pair into a list never disturbs the relative order of the
pairs already present, and skips exactly the pairs with a strictly larger
count; filtering by any fixed count value therefore commutes with the
insertion. -/
theorem orderedInsert_filter (x : String × ℕ) (l : List (String × ℕ)) (n : ℕ) :
    (List.orderedInsert cronDescOrder x l).filter (fun p => p.2 == n) =
      if x.2 = n then x :: l.filter (fun p => p.2 == n)
      else l.filter (fun p => p.2 == n) := by
  rw [List.orderedInsert_eq_take_drop, List.filter_append]
  by_cases hx : x.2 = n
  · rw [if_pos hx]
    have htake : (l.takeWhile fun b => decide ¬cronDescOrder x b).filter
        (fun p => p.2 == n) = [] := by
      rw [List.filter_eq_nil_iff]
      intro a ha
      have hpa := List.mem_takeWhile_imp ha
      simp only [decide_not, Bool.not_eq_eq_eq_not, Bool.not_true,
        decide_eq_false_iff_not] at hpa
      have : x.2 < a.2 := Nat.lt_of_not_le hpa
      simp only [beq_iff_eq]
      omega
    rw [htake, List.nil_append, List.filter_cons]
    have hxn : ((fun p => p.2 == n) x) = true := by simp [hx]
    rw [if_pos hxn]
    have : (l.takeWhile fun b => decide ¬cronDescOrder x b).filter
          (fun p => p.2 == n) ++
        (l.dropWhile fun b => decide ¬cronDescOrder x b).filter
          (fun p => p.2 == n) = l.filter (fun p => p.2 == n) := by
      rw [← List.filter_append, List.takeWhile_append_dropWhile]
    rw [← this, htake, List.nil_append]
  · rw [if_neg hx, List.filter_cons]
    have hxn : ¬((x.2 == n) = true) := by simp [hx]
    rw [if_neg hxn, ← List.filter_append, List.takeWhile_append_dropWhile]

/-- The stable descending sort never reorders pairs of equal count: filtering
the sorted list by any count value gives the same sequence as filtering the
unsorted list. -/
theorem insertionSort_filter (l : List (String × ℕ)) (n : ℕ) :
    (List.insertionSort cronDescOrder l).filter (fun p => p.2 == n) =
      l.filter (fun p => p.2 == n) := by
  induction l with
  | nil => rfl
  | cons x l ih =>
    show (List.orderedInsert cronDescOrder x
      (List.insertionSort cronDescOrder l)).filter (fun p => p.2 == n) = _
    rw [orderedInsert_filter, List.filter_cons]
    by_cases hx : x.2 = n
    · rw [if_pos hx, ih]
      have hxn : ((fun p => p.2 == n) x) = true := by simp [hx]
      rw [if_pos hxn]
    · rw [if_neg hx, ih]
      have hxn : ¬((x.2 == n) = true) := by simp [hx]
      rw [if_neg hxn]

/-- C7: the sort in `sort_crons_by_frequency` is stable — for every count
value `n`, the pairs carrying `n` appear in the output in the same relative
order as in the computed input pair list (the comprehension's output, which
lists the expressions in input order). -/
theorem sortByFrequency_stable (E : CronEngine) (now : ℕ) (exprs : List String)
    (period : String) (freqs out : List (String × ℕ))
    (hc : computeFrequencies E now exprs period = Except.ok freqs)
    (hs : sort_crons_by_frequency E now exprs period = Except.ok out) :
    ∀ n, out.filter (fun p => p.2 == n) = freqs.filter (fun p => p.2 == n) := by
  obtain ⟨freqs2, hc2, rfl⟩ := sort_crons_ok_elim E now exprs period out hs
  rw [hc] at hc2
  have hq : freqs = freqs2 := Except.ok.inj hc2
  subst hq
  intro n
  exact insertionSort_filter freqs n

/-- Witness for C7 on two expressions with equal count 0: their relative
order survives the sort. -/
theorem sortByFrequency_stable_witness :
    (([("0 0 * * *", 0), ("0 0 1 1 *", 0)] : List (String × ℕ)).filter
        (fun p => p.2 == 0)) =
      (([("0 0 * * *", 0), ("0 0 1 1 *", 0)] : List (String × ℕ)).filter
        (fun p => p.2 == 0)) :=
  sortByFrequency_stable testEngine 0 ["0 0 * * *", "0 0 1 1 *"] "day"
    [("0 0 * * *", 0), ("0 0 1 1 *", 0)] [("0 0 * * *", 0), ("0 0 1 1 *", 0)]
    (by
      have h1 : get_cron_frequency testEngine "0 0 * * *" 0 "day" = Except.ok 0 := by
        rw [get_cron_frequency_parse_some testEngine "0 0 * * *" (every 1440 (by omega))
          0 "day" rfl, if_pos rfl, countRuns_unfold]
        norm_num [every, secondsPerDay]
      have h2 : get_cron_frequency testEngine "0 0 1 1 *" 0 "day" = Except.ok 0 := by
        rw [get_cron_frequency_parse_some testEngine "0 0 1 1 *" (every 525600 (by omega))
          0 "day" rfl, if_pos rfl, countRuns_unfold]
        norm_num [every, secondsPerDay]
      rw [computeFrequencies_cons, h1, computeFrequencies_cons, h2]
      rfl)
    (by
      have h1 : get_cron_frequency testEngine "0 0 * * *" 0 "day" = Except.ok 0 := by
        rw [get_cron_frequency_parse_some testEngine "0 0 * * *" (every 1440 (by omega))
          0 "day" rfl, if_pos rfl, countRuns_unfold]
        norm_num [every, secondsPerDay]
      have h2 : get_cron_frequency testEngine "0 0 1 1 *" 0 "day" = Except.ok 0 := by
        rw [get_cron_frequency_parse_some testEngine "0 0 1 1 *" (every 525600 (by omega))
          0 "day" rfl, if_pos rfl, countRuns_unfold]
        norm_num [every, secondsPerDay]
      unfold sort_crons_by_frequency
      rw [computeFrequencies_cons, h1, computeFrequencies_cons, h2]
      rfl)
    0

/-- C9: in the code's original shape, the `start_time` default of
`sl_schedule` is `cron_start_time()` evaluated once at definition time
(`moduleInit def_clock`); two calls that omit `start_time` use the very same
default value whatever the clock reads at each call (`now1`, `now2`), and that
value is the definition-time reading `cron_start_time def_clock`. -/
theorem sl_schedule_default_capture (E : CronEngine) (strftime : ℕ → String → String)
    (def_clock now1 now2 : ℕ) (cron format : String) :
    sl_schedule E strftime (moduleInit def_clock) now1 cron none format =
        sl_schedule E strftime (moduleInit def_clock) now2 cron none format ∧
      sl_schedule E strftime (moduleInit def_clock) now1 cron none format =
        sl_schedule E strftime (moduleInit def_clock) now1 cron
          (some (cron_start_time def_clock)) format :=
  ⟨rfl, rfl⟩
